import Mathlib

/-!
Verification of the census spreadsheet parser (src/src/parser.py).

The Python source is shallowly embedded: every cell read from a spreadsheet is
an `Option String` (`none` for a pandas NaN, `some s` for a textual cell), rows
are lists of cells, and the two row scanners become explicit state machines
folded over the row list.  Python exceptions (IndexError/KeyError inside the
scan, file errors outside it) are modelled with `Except`.

Modelling conventions, noted where they matter:
  - Python `str.strip` / regex `\s` are modelled on the ASCII whitespace
    characters (space, tab, LF, CR, VT, FF); the inputs of this program are
    spreadsheet cells for which this coincides with Python's behaviour.
  - Python `str.lower` / `re.IGNORECASE` are modelled on the ASCII and
    Russian (Cyrillic) alphabets, the only alphabets used by the source.
  - regex `\d` / `str.isdigit` are modelled as the ASCII decimal digits.
-/

/-! ## Python primitive operations on text -/

/-- ASCII decimal digit, the model of regex `\d` and `str.isdigit` characters. -/
def isDig (c : Char) : Bool := 48 ≤ c.toNat && c.toNat ≤ 57

/-- Whitespace as stripped by Python `str.strip` and matched by regex `\s`
(ASCII part: space, tab, LF, VT, FF, CR). -/
def isPySpace (c : Char) : Bool :=
  c.toNat = 32 || c.toNat = 9 || c.toNat = 10 || c.toNat = 13 || c.toNat = 11 || c.toNat = 12

/-- Python `str.lower` on one character, for the ASCII and Cyrillic alphabets
(the only alphabets appearing in the source's phrases). -/
def pyLowerChar (c : Char) : Char :=
  if 65 ≤ c.toNat ∧ c.toNat ≤ 90 then Char.ofNat (c.toNat + 32)
  else if 0x410 ≤ c.toNat ∧ c.toNat ≤ 0x42F then Char.ofNat (c.toNat + 32)
  else if c.toNat = 0x401 then Char.ofNat 0x451
  else c

/-- Python `str.strip`: drop whitespace from both ends. -/
def pyStrip (l : List Char) : List Char :=
  ((l.dropWhile isPySpace).reverse.dropWhile isPySpace).reverse

/-- Python `str.lower` on a string. -/
def pyLower (s : String) : String := ⟨s.data.map pyLowerChar⟩

/-- `l₁` is a prefix of `l₂` (Boolean). -/
def pfxOf : List Char → List Char → Bool
  | [], _ => true
  | _ :: _, [] => false
  | a :: as, b :: bs => a == b && pfxOf as bs

/-- Python substring test `needle in hay` on character lists. -/
def containsSeq (needle : List Char) : List Char → Bool
  | [] => needle.isEmpty
  | c :: rest => pfxOf needle (c :: rest) || containsSeq needle rest

/-- Python substring test `needle in hay` on strings. -/
def strContains (hay needle : String) : Bool := containsSeq needle.data hay.data

/-- Value of a list of ASCII digits, i.e. Python `int` applied to a digit
string (the only way the source builds numbers from cells). -/
def digitsToNat (l : List Char) : Nat := l.foldl (fun a c => 10 * a + (c.toNat - 48)) 0

/-- Python `int(s)` for the all-digit strings accepted by the source's guards. -/
def strToInt (s : String) : Int := (digitsToNat s.data : Int)

/-- Python `s.isdigit()`: nonempty and all decimal digits. -/
def pyIsdigit (s : String) : Bool := !s.data.isEmpty && s.data.all isDig

/-- Python truthiness of an optional string cell: `None` and `""` are falsy. -/
def pyTruthy : Option String → Bool
  | none => false
  | some s => !s.data.isEmpty

/-- Python `s.replace('\n', ' ')`. -/
def replNl (l : List Char) : List Char := l.map (fun c => if c = '\n' then ' ' else c)

/-- The cell cleaning applied by both scanners:
`str(v).replace('\n', ' ').strip()`. -/
def pyClean (s : String) : String := ⟨pyStrip (replNl s.data)⟩

/-- `s.split('.')[0]`: the part of `s` before the first period. -/
def splitDot0 (s : String) : String := ⟨s.data.takeWhile (fun c => c != '.')⟩

/-! ## parse_age_group -/

/-- First pattern of `parse_age_group`:
`re.match(r'(\d+)\s*(и более|и старше|\+)', s, re.IGNORECASE)`.
Returns `(N, 120)` on success. -/
def matchOlder (cs : List Char) : Option (Int × Int) :=
  let ds := cs.takeWhile isDig
  let rest := cs.dropWhile isDig
  if ds.isEmpty then none
  else
    let rest2 := (rest.dropWhile isPySpace).map pyLowerChar
    if pfxOf "и более".data rest2 || pfxOf "и старше".data rest2 || pfxOf "+".data rest2 then
      some ((digitsToNat ds : Int), 120)
    else none

/-- Second pattern of `parse_age_group`: `re.match(r'(\d+)\s*[-–—]\s*(\d+)', s)`.
Returns the two numbers in textual order. -/
def matchRange (cs : List Char) : Option (Int × Int) :=
  let ds1 := cs.takeWhile isDig
  let r1 := cs.dropWhile isDig
  if ds1.isEmpty then none
  else
    match r1.dropWhile isPySpace with
    | c :: r3 =>
      if c = '-' || c = '–' || c = '—' then
        let ds2 := (r3.dropWhile isPySpace).takeWhile isDig
        if ds2.isEmpty then none
        else some ((digitsToNat ds1 : Int), (digitsToNat ds2 : Int))
      else none
    | [] => none

/-- Third pattern of `parse_age_group`: `re.match(r'(\d+)\s*(лет?)?$', s)`
(case sensitive, anchored at the end of the stripped string).
Returns `(N, N)`. -/
def matchSingle (cs : List Char) : Option (Int × Int) :=
  let ds := cs.takeWhile isDig
  if ds.isEmpty then none
  else
    let r := (cs.dropWhile isDig).dropWhile isPySpace
    if r = [] || r = "лет".data || r = "ле".data then
      some ((digitsToNat ds : Int), (digitsToNat ds : Int))
    else none

/-- `parse_age_group` (src/src/parser.py:8): strip the input, then try the
open-ended, range, and single-age patterns in that order. -/
def parse_age_group (s : String) : Option (Int × Int) :=
  let cs := pyStrip s.data
  match matchOlder cs with
  | some r => some r
  | none =>
    match matchRange cs with
    | some r => some r
    | none => matchSingle cs

/-! ## calculate_year_range -/

/-- `calculate_year_range` (src/src/parser.py:47): birth-year interval label
from an age interval and a base year. -/
def calculate_year_range (lower_age upper_age : Int) (base_year : Int := 2010) : String :=
  let upper_year := base_year - lower_age
  let lower_year := base_year - upper_age
  "(" ++ toString lower_year ++ ", " ++ toString upper_year ++ ")"

example : parse_age_group "0 - 4" = some (0, 4) := by decide
example : parse_age_group "85 и более" = some (85, 120) := by decide
example : parse_age_group "100+" = some (100, 120) := by decide
example : parse_age_group "75 и старше" = some (75, 120) := by decide
example : parse_age_group " 60 - 64 " = some (60, 64) := by decide
example : parse_age_group "Некорректно" = none := by decide
example : parse_age_group "5" = some (5, 5) := by decide
example : parse_age_group "5 лет" = some (5, 5) := by decide
example : calculate_year_range 0 4 2010 = "(2006, 2010)" := by decide

/-! ## Insertion-ordered dictionaries (Python `dict`) -/

/-- Python dict lookup `d[k]` (as an `Option`). -/
def lookupD {α : Type} (d : List (String × α)) (k : String) : Option α :=
  (d.find? (fun p => p.1 == k)).map (fun p => p.2)

/-- Python membership test `k in d`. -/
def containsD {α : Type} (d : List (String × α)) (k : String) : Bool :=
  d.any (fun p => p.1 == k)

/-- Python dict assignment `d[k] = v`: update in place if the key exists,
otherwise append (insertion order preserved). -/
def setD {α : Type} (d : List (String × α)) (k : String) (v : α) : List (String × α) :=
  if containsD d k then d.map (fun p => if p.1 == k then (k, v) else p)
  else d ++ [(k, v)]

/-! ## Nationality scanner (read_nationality_data, src/src/parser.py:64) -/

/-- Nation sub-dictionary: nation name to population. -/
abbrev NatDict := List (String × Int)

/-- Scanner output: region name to (total population, nation sub-dictionary). -/
abbrev RegDict := List (String × (Int × NatDict))

/-- The four parser states of `read_nationality_data` (constants 0..3 in the
source). -/
inductive NScanState where
  | searchingFO
  | searchingRegion
  | searchingNationMarker
  | readingNations
deriving DecidableEq

/-- Mutable loop state of `read_nationality_data`.  The `last_federal_district`
variable of the source is omitted: it only feeds log messages. -/
structure NState where
  state : NScanState
  currentRegion : Option String
  totalPopulation : Option Int
  data : RegDict
deriving DecidableEq

/-- Initial loop state of `read_nationality_data`. -/
def initN : NState := ⟨.searchingFO, none, none, []⟩

/-- The first four cells of a row, as read by the nationality scanner. -/
abbrev Cells := Option String × Option String × Option String × Option String

/-- `is_federal_district_row` (src/src/parser.py:99): column B or C contains
the federal-district phrase (checked on every row, any state). -/
def is_federal_district_row (b c : Option String) : Bool :=
  (pyTruthy b && strContains (pyLower (b.getD "")) "федеральный округ") ||
  (pyTruthy c && strContains (pyLower (c.getD "")) "федеральный округ")

/-- `is_potential_region` (src/src/parser.py:114): the region-header guard
evaluated in state `SEARCHING_REGION` on the cleaned cells. -/
def is_potential_region (a b c d : Option String) : Bool :=
  (match a with
   | none => false
   | some sa => !sa.data.isEmpty && pyIsdigit (splitDot0 sa)) &&
  b.isNone &&
  (match c, d with
   | some sc, some sd =>
     !sc.data.isEmpty && !sd.data.isEmpty && pyIsdigit sd &&
     !strContains (pyLower sc) "федеральный округ" &&
     !strContains (pyLower sc) "указавшие национальную" &&
     decide (sc.data.length > 3)
   | _, _ => false)

/-- The stoplist of `is_potential_nationality` (src/src/parser.py:162):
boilerplate phrases that are never nation names. -/
def nationStoplist : List String :=
  ["указавшие национальную принадлежность", "национальность не указана",
   "итого", "лица,", "не указавшие национальную", "принадлежность",
   "(не перечисленные выше)"]

/-- `data[current_region][1][nation_name] = nation_pop`: insert a nation count
into the sub-dictionary of region `r`. -/
def updateNation (d : RegDict) (r nation : String) (pop : Int) : RegDict :=
  d.map (fun p => if p.1 == r then (p.1, (p.2.1, setD p.2.2 nation pop)) else p)

/-- One iteration of the `read_nationality_data` loop on the cleaned cells
`a b c d` of the current row (src/src/parser.py:87-187, logging dropped). -/
def stepNCore (st : NState) (a b c d : Option String) : NState :=
  if is_federal_district_row b c then
    { st with state := .searchingRegion, currentRegion := none }
  else
    match st.state with
    | .searchingFO => st
    | .searchingRegion =>
      if is_potential_region a b c d then
        let name := pyClean (c.getD "")
        if containsD st.data name then st
        else
          { state := .searchingNationMarker, currentRegion := some name,
            totalPopulation := some (strToInt (d.getD "")),
            data := setD st.data name (strToInt (d.getD ""), []) }
      else st
    | .searchingNationMarker =>
      if pyTruthy st.currentRegion && pyTruthy c &&
          strContains (pyLower (c.getD "")) "указавшие национальную" then
        { st with state := .readingNations }
      else st
    | .readingNations =>
      let isPotNat :=
        pyTruthy st.currentRegion &&
        (match a with
         | none => false
         | some sa => !sa.data.isEmpty && pyIsdigit (splitDot0 sa)) &&
        pyTruthy c && pyTruthy d &&
        (match d with | none => false | some sd => pyIsdigit sd) &&
        !(nationStoplist.contains (pyLower (c.getD "")))
      if isPotNat then
        let nation := pyClean (c.getD "")
        let pop := strToInt (d.getD "")
        if pop > 0 then
          match st.currentRegion with
          | some r =>
            if containsD st.data r then { st with data := updateNation st.data r nation pop }
            else st
          | none => st
        else st
      else if a.isNone && c.isNone && d.isNone then
        { st with state := .searchingRegion, currentRegion := none }
      else st

/-- Cleaning of one raw cell, as done for `row_values`
(src/src/parser.py:89). -/
def cleanCell : Option String → Option String
  | none => none
  | some s => some (pyClean s)

/-- One iteration of the loop on a raw 4-cell row: clean, then step. -/
def stepN (st : NState) (cells : Cells) : NState :=
  stepNCore st (cleanCell cells.1) (cleanCell cells.2.1) (cleanCell cells.2.2.1)
    (cleanCell cells.2.2.2)

/-- Extract `row_values[0] .. row_values[3]`; a row with fewer than four cells
raises `IndexError` in the source. -/
def getCols (r : List (Option String)) : Except Unit Cells :=
  match r with
  | a :: b :: c :: d :: _ => .ok (a, b, c, d)
  | _ => .error ()

/-- The whole scanning loop of `read_nationality_data`; an in-loop exception
aborts the scan. -/
def scanGoN : NState → List (List (Option String)) → Except Unit NState
  | st, [] => .ok st
  | st, r :: rs =>
    match getCols r with
    | .error e => .error e
    | .ok cells => scanGoN (stepN st cells) rs

/-- Reading the input file: either a failure (missing file or any other read
exception) or the list of raw rows. -/
inductive ReadErr where
  | fileNotFound
  | otherExn
deriving DecidableEq

/-- `read_nationality_data` (src/src/parser.py:64): scan all rows; any file or
in-scan exception is absorbed and yields the empty map. -/
def read_nationality_data (input : Except ReadErr (List (List (Option String)))) : RegDict :=
  match input with
  | .error _ => []
  | .ok rows =>
    match scanGoN initN rows with
    | .error _ => []
    | .ok st => st.data

/-! ## Age/sex scanner (read_age_sex_data, src/src/parser.py:203) -/

/-- Age sub-dictionary: raw age label to (male count, female count). -/
abbrev AgeDict := List (String × (Int × Int))

/-- Scanner output: region name to age sub-dictionary. -/
abbrev AgeRegDict := List (String × AgeDict)

/-- Mutable loop state of `read_age_sex_data`. -/
structure AState where
  currentRegion : Option String
  readingAges : Bool
  data : AgeRegDict
deriving DecidableEq

/-- Initial loop state of `read_age_sex_data`. -/
def initA : AState := ⟨none, false, []⟩

/-- Cleaning used for the lookahead row (src/src/parser.py:246):
`str(v).strip()`, without the newline replacement. -/
def cleanCellB : Option String → Option String
  | none => none
  | some s => some ⟨pyStrip s.data⟩

/-- Python `list[i]`, raising `IndexError` when out of range. -/
def getIdx {α : Type} (l : List α) (i : Nat) : Except Unit α :=
  match l.get? i with
  | some v => .ok v
  | none => .error ()

/-- `region_candidate.split()[0]`: first whitespace-delimited token. -/
def firstTok (l : List Char) : List Char :=
  (l.dropWhile isPySpace).takeWhile (fun c => !isPySpace c)

/-- The region-header heuristics of `read_age_sex_data`
(src/src/parser.py:237-242) on the cleaned column-D value. -/
def regionCandidateCond (rc : Option String) : Bool :=
  match rc with
  | none => false
  | some s =>
    !s.data.isEmpty &&
    !((firstTok s.data).any isDig) &&
    !strContains (pyLower s) "в том числе" &&
    !strContains (pyLower s) "возрасте" &&
    (parse_age_group s).isNone &&
    decide (s.data.length > 5)

/-- The lookahead confirmation (src/src/parser.py:247): the next row's
column D contains the urban-and-rural boilerplate phrase. -/
def urbanRuralOK (n3 : Option String) : Bool :=
  pyTruthy n3 && strContains (pyLower (n3.getD "")) "городское и сельское"

/-- `data[current_region][age_group_str] = (males, females)`. -/
def updateAge (d : AgeRegDict) (r label : String) (v : Int × Int) : AgeRegDict :=
  d.map (fun p => if p.1 == r then (p.1, setD p.2 label v) else p)

/-- The reading-ages part of one `read_age_sex_data` iteration
(src/src/parser.py:255-281), on the cleaned row values. -/
def readAges (st : AState) (rv : List (Option String)) : Except Unit AState :=
  if st.readingAges && pyTruthy st.currentRegion then
    match getIdx rv 3, getIdx rv 8, getIdx rv 9 with
    | .ok ag, .ok ml, .ok fl =>
      if pyTruthy ag && pyTruthy ml && pyTruthy fl &&
          pyIsdigit (ml.getD "") && pyIsdigit (fl.getD "") then
        if (parse_age_group (ag.getD "")).isSome then
          match st.currentRegion with
          | some r =>
            if containsD st.data r then
              .ok { st with
                data := updateAge st.data r (ag.getD "") (strToInt (ml.getD ""), strToInt (fl.getD "")) }
            else .error ()
          | none => .error ()
        else .ok st
      else if ag.isNone && ml.isNone && fl.isNone then
        match st.currentRegion with
        | some r =>
          match lookupD st.data r with
          | some sub =>
            if sub.isEmpty then .ok st
            else .ok { st with readingAges := false, currentRegion := none }
          | none => .error ()
        | none => .ok st
      else .ok st
    | _, _, _ => .error ()
  else .ok st

/-- One iteration of the `read_age_sex_data` loop: `row` is the raw current
row, `nx` the raw next row when one exists (the `index + 1 < len(df)`
lookahead). -/
def stepA (st : AState) (row : List (Option String)) (nx : Option (List (Option String))) :
    Except Unit AState :=
  let rv := row.map cleanCell
  match getIdx rv 3 with
  | .error e => .error e
  | .ok rc =>
    match rc, nx with
    | some s, some nrow =>
      if regionCandidateCond (some s) then
        match getIdx (nrow.map cleanCellB) 3 with
        | .error e => .error e
        | .ok n3 =>
          if urbanRuralOK n3 then
            let region := pyClean s
            .ok { currentRegion := some region, readingAges := true,
                  data := setD st.data region [] }
          else readAges st rv
      else readAges st rv
    | some _, none => readAges st rv
    | none, _ => readAges st rv

/-- The whole scanning loop of `read_age_sex_data`. -/
def scanGoA : AState → List (List (Option String)) → Except Unit AState
  | st, [] => .ok st
  | st, r :: rs =>
    match stepA st r rs.head? with
    | .error e => .error e
    | .ok st' => scanGoA st' rs

/-- `read_age_sex_data` (src/src/parser.py:203): scan all rows; any file or
in-scan exception is absorbed and yields the empty map. -/
def read_age_sex_data (input : Except ReadErr (List (List (Option String)))) : AgeRegDict :=
  match input with
  | .error _ => []
  | .ok rows =>
    match scanGoA initA rows with
    | .error _ => []
    | .ok st => st.data

example :
    read_nationality_data (.ok
      [[none, some "Центральный федеральный округ", none, none],
       [some "1.", none, some "Sample Region", some "1000"],
       [none, none, some "Указавшие национальную принадлежность", none],
       [some "1.", none, some "Russians", some "800"],
       [some "2.", none, some "Tatars", some "0"],
       [none, none, none, none]]) =
    [("Sample Region", (1000, [("Russians", 800)]))] := by decide

/-! ## Helper lemmas for the pattern matchers -/

lemma matchOlder_nonneg {cs : List Char} {l u : Int} (h : matchOlder cs = some (l, u)) :
    0 ≤ l ∧ 0 ≤ u := by
  dsimp only [matchOlder] at h
  split at h
  · simp at h
  · split at h
    · rw [Option.some.injEq, Prod.mk.injEq] at h
      obtain ⟨hl, hu⟩ := h
      subst hl; subst hu
      exact ⟨Int.natCast_nonneg _, by decide⟩
    · simp at h

lemma matchRange_nonneg {cs : List Char} {l u : Int} (h : matchRange cs = some (l, u)) :
    0 ≤ l ∧ 0 ≤ u := by
  dsimp only [matchRange] at h
  split at h
  · simp at h
  · split at h
    · split at h
      · split at h
        · simp at h
        · rw [Option.some.injEq, Prod.mk.injEq] at h
          obtain ⟨hl, hu⟩ := h
          subst hl; subst hu
          exact ⟨Int.natCast_nonneg _, Int.natCast_nonneg _⟩
      · simp at h
    · simp at h

lemma matchSingle_nonneg {cs : List Char} {l u : Int} (h : matchSingle cs = some (l, u)) :
    0 ≤ l ∧ 0 ≤ u := by
  dsimp only [matchSingle] at h
  split at h
  · simp at h
  · split at h
    · rw [Option.some.injEq, Prod.mk.injEq] at h
      obtain ⟨hl, hu⟩ := h
      subst hl; subst hu
      exact ⟨Int.natCast_nonneg _, Int.natCast_nonneg _⟩
    · simp at h

/-! ## Claim theorems (first batch) -/

/-- C3: for all integers, `calculate_year_range lower_age upper_age base_year`
is the string `"(base_year - upper_age, base_year - lower_age)"`, i.e. the
lower year is `base_year - upper_age` and the upper year is
`base_year - lower_age`; in particular the two concrete examples of the spec
hold. -/
theorem calculate_year_range_spec :
    (∀ lower_age upper_age base_year : Int,
      calculate_year_range lower_age upper_age base_year =
        "(" ++ toString (base_year - upper_age) ++ ", " ++ toString (base_year - lower_age) ++ ")") ∧
    calculate_year_range 0 4 2010 = "(2006, 2010)" ∧
    calculate_year_range 85 120 2010 = "(1890, 1925)" :=
  ⟨fun _ _ _ => rfl, by decide, by decide⟩

/-- C4: on the concrete six-row nationality input (federal-district marker
row, region row, nation-marker row, two nation rows, blank separator row) the
nationality scanner returns exactly the one-region map with the
zero-population nation dropped.  The marker phrases are the source's Russian
originals, which the spec renders in English ("federal district",
"indicating nationality affiliation"). -/
theorem nationality_end_to_end :
    read_nationality_data (.ok
      [[none, some "Центральный федеральный округ", none, none],
       [some "1.", none, some "Sample Region", some "1000"],
       [none, none, some "Указавшие национальную принадлежность", none],
       [some "1.", none, some "Russians", some "800"],
       [some "2.", none, some "Tatars", some "0"],
       [none, none, none, none]]) =
    [("Sample Region", (1000, [("Russians", 800)]))] := by decide

/-- C2 counterexample: the claim that every interval returned by
`parse_age_group` satisfies lower ≤ upper is false: on the input "9 - 5" the
range pattern returns the bounds in textual order, `(9, 5)`, and `9 ≤ 5` does
not hold. -/
theorem parse_age_group_unordered :
    parse_age_group "9 - 5" = some (9, 5) ∧ ¬ ((9 : Int) ≤ 5) := by decide

/-- C2 amended: every age interval returned by `parse_age_group` has
non-negative bounds, but the parser performs no ordering validation, so
lower ≤ upper is not guaranteed (range bounds are kept in textual order and
the open-ended cap 120 may lie below the lower bound). -/
theorem parse_age_group_nonneg :
    ∀ (s : String) (l u : Int), parse_age_group s = some (l, u) → 0 ≤ l ∧ 0 ≤ u := by
  intro s l u h
  dsimp only [parse_age_group] at h
  cases ho : matchOlder (pyStrip s.data) with
  | some r =>
    rw [ho] at h
    rw [Option.some.injEq] at h
    subst h
    exact matchOlder_nonneg ho
  | none =>
    rw [ho] at h
    cases hr : matchRange (pyStrip s.data) with
    | some r =>
      rw [hr] at h
      rw [Option.some.injEq] at h
      subst h
      exact matchRange_nonneg hr
    | none =>
      rw [hr] at h
      exact matchSingle_nonneg h

/-- Witness for C2 amended. -/
theorem parse_age_group_nonneg_witness :
    parse_age_group "5" = some (5, 5) ∧ ((0 : Int) ≤ 5 ∧ (0 : Int) ≤ 5) :=
  ⟨by decide, parse_age_group_nonneg "5" 5 5 (by decide)⟩

/-- C8: both scanners absorb failures: a file-read error yields the empty
map, and an in-scan exception (e.g. a too-short row) also yields the empty
map, discarding any partially accumulated entries; the embedded functions are
total, so nothing propagates to the caller. -/
theorem scanners_absorb_errors :
    (∀ e, read_nationality_data (.error e) = []) ∧
    (∀ rows, scanGoN initN rows = .error () → read_nationality_data (.ok rows) = []) ∧
    (∀ e, read_age_sex_data (.error e) = []) ∧
    (∀ rows, scanGoA initA rows = .error () → read_age_sex_data (.ok rows) = []) := by
  refine ⟨fun e => rfl, fun rows h => ?_, fun e => rfl, fun rows h => ?_⟩
  · simp [read_nationality_data, h]
  · simp [read_age_sex_data, h]

/-- Witness for C8 at concrete inputs (the one-row input `[[]]` raises
IndexError inside each scan). -/
theorem scanners_absorb_errors_witness :
    read_nationality_data (.error .fileNotFound) = [] ∧
    read_nationality_data (.ok [[]]) = [] ∧
    read_age_sex_data (.error .otherExn) = [] ∧
    read_age_sex_data (.ok [[]]) = [] :=
  ⟨scanners_absorb_errors.1 .fileNotFound,
   scanners_absorb_errors.2.1 [[]] rfl,
   scanners_absorb_errors.2.2.1 .otherExn,
   scanners_absorb_errors.2.2.2 [[]] rfl⟩

/-! ## Duplicate regions and the initial state -/

lemma is_potential_region_not_fed {a b c d : Option String}
    (h : is_potential_region a b c d = true) :
    is_federal_district_row b c = false := by
  unfold is_potential_region at h
  cases b with
  | some sb => simp at h
  | none =>
    cases c with
    | none => simp at h
    | some sc =>
      cases d with
      | none => simp at h
      | some sd =>
        simp only [Bool.and_eq_true, Bool.not_eq_true'] at h
        have hfed : strContains (pyLower sc) "федеральный округ" = false := by tauto
        unfold is_federal_district_row
        simp [pyTruthy, hfed]

/-- C6: in state `SEARCHING_REGION`, a row that qualifies as a region header
but whose cleaned region name is already a key of the map is dropped: the
whole scanner state, and in particular the output map with the first
occurrence's entry, is left unchanged. -/
theorem duplicate_region_row_dropped :
    ∀ (st : NState) (a b c d : Option String),
      st.state = .searchingRegion →
      is_potential_region a b c d = true →
      containsD st.data (pyClean (c.getD "")) = true →
      stepNCore st a b c d = st := by
  intro st a b c d hst hpot hdup
  have hfed := is_potential_region_not_fed hpot
  unfold stepNCore
  rw [hfed, hst, hpot]
  simp [hdup]

/-- Witness for C6: a second "Sample Region" row with a different total is
dropped and the map keeps the first occurrence. -/
theorem duplicate_region_row_dropped_witness :
    stepNCore ⟨.searchingRegion, none, none, [("Sample Region", (1000, [("Russians", 800)]))]⟩
        (some "2.") none (some "Sample Region") (some "500") =
      ⟨.searchingRegion, none, none, [("Sample Region", (1000, [("Russians", 800)]))]⟩ :=
  duplicate_region_row_dropped _ _ _ _ _ rfl (by decide) (by decide)

/-- A raw row is a federal-district marker row: its cleaned column B or C
contains the federal-district phrase (rows too short to be read at all count
as non-markers). -/
def rowIsFed (r : List (Option String)) : Bool :=
  match getCols r with
  | .ok (_, b, c, _) => is_federal_district_row (cleanCell b) (cleanCell c)
  | .error _ => false

/-- C10: as long as no row contains the federal-district phrase, the
nationality scanner stays in its initial state `SEARCHING_FEDERAL_DISTRICT`
with an empty map (or aborts on a malformed row): no region, and hence no
nation entry, is ever added before the first federal-district row.
Instantiating `rows` with any marker-free prefix of an input gives the claim
for that prefix. -/
theorem no_region_before_federal_district :
    ∀ rows : List (List (Option String)),
      (∀ r ∈ rows, rowIsFed r = false) →
      scanGoN initN rows = .ok initN ∨ scanGoN initN rows = .error () := by
  intro rows h
  induction rows with
  | nil => left; rfl
  | cons r rs ih =>
    have hr := h r (List.mem_cons_self r rs)
    cases hg : getCols r with
    | error e =>
      right
      simp [scanGoN, hg]
    | ok cells =>
      have hstep : stepN initN cells = initN := by
        obtain ⟨a, b, c, d⟩ := cells
        have hfed : is_federal_district_row (cleanCell b) (cleanCell c) = false := by
          unfold rowIsFed at hr
          rw [hg] at hr
          exact hr
        unfold stepN stepNCore
        rw [hfed]
        simp [initN]
      have : scanGoN initN (r :: rs) = scanGoN initN rs := by
        simp [scanGoN, hg, hstep]
      rw [this]
      exact ih (fun r' hr' => h r' (List.mem_cons_of_mem r hr'))

/-- Witness for C10: a perfectly well-formed region row is ignored while the
scanner has not yet seen a federal-district marker. -/
theorem no_region_before_federal_district_witness :
    scanGoN initN [[some "1.", none, some "Sample Region", some "1000"]] = .ok initN ∨
    scanGoN initN [[some "1.", none, some "Sample Region", some "1000"]] = .error () :=
  no_region_before_federal_district _ (by decide)

/-! ## Positivity of stored nation populations (C7) -/

/-- Every nation population stored anywhere in a region map is positive. -/
def allPosN (d : RegDict) : Prop := ∀ e ∈ d, ∀ q ∈ e.2.2, 0 < q.2

lemma mem_setD {α : Type} {d : List (String × α)} {k : String} {v : α} {x : String × α}
    (hx : x ∈ setD d k v) : x ∈ d ∨ x = (k, v) := by
  unfold setD at hx
  split at hx
  · obtain ⟨y, hy, hfy⟩ := List.mem_map.mp hx
    by_cases hk : (y.1 == k) = true
    · rw [if_pos hk] at hfy
      right; exact hfy.symm
    · rw [if_neg hk] at hfy
      left; exact hfy ▸ hy
  · rw [List.mem_append] at hx
    rcases hx with h | h
    · exact .inl h
    · right; simpa using h

lemma allPos_setD {d : RegDict} {k : String} {v : Int × NatDict}
    (hd : allPosN d) (hv : ∀ q ∈ v.2, 0 < q.2) : allPosN (setD d k v) := by
  intro e he q hq
  rcases mem_setD he with h | h
  · exact hd e h q hq
  · subst h; exact hv q hq

lemma allPos_updateNation {d : RegDict} {r nation : String} {pop : Int}
    (hd : allPosN d) (hpop : 0 < pop) : allPosN (updateNation d r nation pop) := by
  intro e he q hq
  unfold updateNation at he
  obtain ⟨y, hy, hfy⟩ := List.mem_map.mp he
  by_cases hk : (y.1 == r) = true
  · rw [if_pos hk] at hfy
    subst hfy
    rcases mem_setD hq with h | h
    · exact hd y hy q h
    · subst h; exact hpop
  · rw [if_neg hk] at hfy
    subst hfy
    exact hd y hy q hq

lemma stepNCore_allPos (st : NState) (a b c d : Option String)
    (h : allPosN st.data) : allPosN (stepNCore st a b c d).data := by
  simp only [stepNCore]
  repeat' split
  all_goals first
    | exact h
    | exact allPos_setD h (fun q hq => by simp at hq)
    | exact allPos_updateNation h (by omega)

lemma scanGoN_allPos :
    ∀ (rows : List (List (Option String))) (st st' : NState),
      allPosN st.data → scanGoN st rows = .ok st' → allPosN st'.data := by
  intro rows
  induction rows with
  | nil =>
    intro st st' h hs
    cases hs
    exact h
  | cons r rs ih =>
    intro st st' h hs
    unfold scanGoN at hs
    cases hg : getCols r with
    | error e => rw [hg] at hs; cases hs
    | ok cells =>
      rw [hg] at hs
      obtain ⟨a, b, c, d⟩ := cells
      exact ih _ _ (stepNCore_allPos _ _ _ _ _ h) hs

lemma lookupD_mem {α : Type} {d : List (String × α)} {k : String} {v : α}
    (h : lookupD d k = some v) : (k, v) ∈ d := by
  unfold lookupD at h
  cases hf : d.find? (fun p => p.1 == k) with
  | none => rw [hf] at h; cases h
  | some pr =>
    rw [hf] at h
    have hv : pr.2 = v := by simpa using h
    have hmem := List.mem_of_find?_eq_some hf
    have hpred := List.find?_some hf
    have hk : pr.1 = k := by simpa using hpred
    have : pr = (k, v) := by
      cases pr
      simp_all
    exact this ▸ hmem

/-- C7: in every map returned by the nationality scanner, every nation
population stored in any region's sub-map is strictly positive (nation rows
whose count parses to 0 are parsed but never stored). -/
theorem nation_populations_positive :
    ∀ (input : Except ReadErr (List (List (Option String)))) (r : String) (t : Int)
      (ns : NatDict) (nm : String) (p : Int),
      lookupD (read_nationality_data input) r = some (t, ns) →
      lookupD ns nm = some p → 0 < p := by
  intro input r t ns nm p hr hn
  cases input with
  | error e => simp [read_nationality_data, lookupD] at hr
  | ok rows =>
    cases hs : scanGoN initN rows with
    | error e =>
      simp only [read_nationality_data, hs] at hr
      simp [lookupD] at hr
    | ok st =>
      simp only [read_nationality_data, hs] at hr
      have hall : allPosN st.data :=
        scanGoN_allPos rows initN st (by intro e he q hq; simp [initN] at he) hs
      exact hall _ (lookupD_mem hr) _ (lookupD_mem hn)

/-- Witness for C7: a concrete scan stores the nation "Pomors" with
population 7, which is positive. -/
theorem nation_populations_positive_witness :
    lookupD (read_nationality_data (.ok
      [[none, some "Южный федеральный округ", none, none],
       [some "1.", none, some "Witness Region", some "50"],
       [none, none, some "Указавшие национальную принадлежность", none],
       [some "1.", none, some "Pomors", some "7"],
       [none, none, none, none]])) "Witness Region" = some (50, [("Pomors", 7)]) ∧
    (0 : Int) < 7 :=
  ⟨by decide, nation_populations_positive (.ok
      [[none, some "Южный федеральный округ", none, none],
       [some "1.", none, some "Witness Region", some "50"],
       [none, none, some "Указавшие национальную принадлежность", none],
       [some "1.", none, some "Pomors", some "7"],
       [none, none, none, none]]) "Witness Region" 50 [("Pomors", 7)] "Pomors" 7
    (by decide) (by decide)⟩

/-! ## Lookahead confirmation in the age/sex scanner (C9) -/

/-- The set of region keys of the output map is unchanged by a step result
(an aborted scan trivially adds no region: the whole result degrades to the
empty map). -/
def keySetPreserved (st : AState) (res : Except Unit AState) : Prop :=
  match res with
  | .error _ => True
  | .ok st' => st'.data.map Prod.fst = st.data.map Prod.fst

lemma updateAge_keys (d : AgeRegDict) (r label : String) (v : Int × Int) :
    (updateAge d r label v).map Prod.fst = d.map Prod.fst := by
  unfold updateAge
  rw [List.map_map]
  apply List.map_congr_left
  intro p hp
  by_cases hk : (p.1 == r) = true
  · simp [Function.comp, hk]
  · simp [Function.comp, hk]

lemma readAges_keys (st : AState) (rv : List (Option String)) :
    keySetPreserved st (readAges st rv) := by
  unfold readAges
  repeat' split
  all_goals first
    | exact trivial
    | rfl
    | exact updateAge_keys st.data _ _ _

/-- A raw row satisfies the region-header heuristics of the age/sex scanner
(on its cleaned column-D value). -/
def regionRowOK (row : List (Option String)) : Bool :=
  match getIdx (row.map cleanCell) 3 with
  | .ok rc => regionCandidateCond rc
  | .error _ => false

/-- The lookahead row is absent, or its cleaned column-D value does not
contain the urban-and-rural phrase. -/
def lookaheadFails (nx : Option (List (Option String))) : Bool :=
  match nx with
  | none => true
  | some nrow =>
    match getIdx (nrow.map cleanCellB) 3 with
    | .ok n3 => !urbanRuralOK n3
    | .error _ => false

/-- C9: the age/sex scanner registers a region for a heuristics-satisfying
row only when the immediately following row contains the urban-and-rural
boilerplate phrase: when the lookahead row is absent or lacks the phrase,
the step adds no region key to the output map. -/
theorem age_sex_region_needs_lookahead :
    ∀ (st : AState) (row : List (Option String)) (nx : Option (List (Option String))),
      regionRowOK row = true → lookaheadFails nx = true →
      keySetPreserved st (stepA st row nx) := by
  intro st row nx hrow hnx
  simp only [regionRowOK] at hrow
  cases hgi : getIdx (row.map cleanCell) 3 with
  | error e => simp [hgi] at hrow
  | ok rc =>
    simp only [hgi] at hrow
    simp only [stepA, hgi]
    cases rc with
    | none => simp [regionCandidateCond] at hrow
    | some s =>
      cases nx with
      | none => exact readAges_keys st _
      | some nrow =>
        simp only [lookaheadFails] at hnx
        cases hgi2 : getIdx (nrow.map cleanCellB) 3 with
        | error e => simp [hgi2] at hnx
        | ok n3 =>
          simp only [hgi2] at hnx
          have hur : urbanRuralOK n3 = false := by simpa using hnx
          simp only [hrow, hgi2, hur, Bool.false_eq_true, if_false, if_true]
          exact readAges_keys st _

/-- Witness for C9: a row carrying a valid region name with no following row
registers nothing. -/
theorem age_sex_region_needs_lookahead_witness :
    keySetPreserved ⟨none, false, []⟩
      (stepA ⟨none, false, []⟩ [none, none, none, some "Sample Region Name"] none) :=
  age_sex_region_needs_lookahead ⟨none, false, []⟩
    [none, none, none, some "Sample Region Name"] none (by decide) (by decide)

/-! ## The region-header guard, characterised (C5) -/

lemma isEmpty_false_iff {α : Type} {l : List α} : l.isEmpty = false ↔ l ≠ [] := by
  cases l <;> simp

lemma isDig_ne_dot {c : Char} (h : isDig c = true) : (c != '.') = true := by
  rcases eq_or_ne c '.' with rfl | hne
  · exact absurd h (by decide)
  · simpa using hne

lemma takeWhile_append_all {p : Char → Bool} {l1 : List Char} (l2 : List Char)
    (h : ∀ x ∈ l1, p x = true) :
    (l1 ++ l2).takeWhile p = l1 ++ l2.takeWhile p := by
  induction l1 with
  | nil => simp
  | cons a t ih =>
    have ha : p a = true := h a (by simp)
    have iht := ih (fun x hx => h x (by simp [hx]))
    simp [List.takeWhile_cons, ha, iht]

lemma dropWhile_head_false (p : Char → Bool) :
    ∀ {l c t}, List.dropWhile p l = c :: t → p c = false := by
  intro l
  induction l with
  | nil => intro c t h; cases h
  | cons a as ih =>
    intro c t h
    by_cases ha : p a = true
    · rw [List.dropWhile_cons, if_pos ha] at h
      exact ih h
    · rw [List.dropWhile_cons, if_neg ha] at h
      cases h
      simpa using ha

/-- `s.split('.')[0].isdigit()` holds exactly when `s` begins with a nonempty
run of digits followed by nothing or by a period. -/
lemma splitDot0_isdigit_iff (s : String) :
    pyIsdigit (splitDot0 s) = true ↔
    ∃ ds rest, s.data = ds ++ rest ∧ ds ≠ [] ∧ (∀ ch ∈ ds, isDig ch = true) ∧
      (rest = [] ∨ ∃ r', rest = '.' :: r') := by
  unfold pyIsdigit splitDot0
  simp only [Bool.and_eq_true, Bool.not_eq_true', List.all_eq_true, isEmpty_false_iff]
  constructor
  · rintro ⟨hne, hall⟩
    refine ⟨s.data.takeWhile (fun c => c != '.'), s.data.dropWhile (fun c => c != '.'),
      (List.takeWhile_append_dropWhile _ _).symm, hne, hall, ?_⟩
    cases hd : s.data.dropWhile (fun c => c != '.') with
    | nil => exact .inl rfl
    | cons ch t =>
      right
      have hch : (ch != '.') = false := dropWhile_head_false (fun c => c != '.') hd
      have : ch = '.' := by simpa using hch
      exact ⟨t, by rw [this]⟩
  · rintro ⟨ds, rest, heq, hne, hds, hrest⟩
    have hall' : ∀ x ∈ ds, (fun c => c != '.') x = true := fun x hx => isDig_ne_dot (hds x hx)
    have hrtk : rest.takeWhile (fun c => c != '.') = [] := by
      rcases hrest with rfl | ⟨r', rfl⟩
      · rfl
      · simp [List.takeWhile_cons]
    rw [heq, takeWhile_append_all rest hall', hrtk, List.append_nil]
    exact ⟨hne, hds⟩

lemma pyIsdigit_iff {s : String} :
    pyIsdigit s = true ↔ s.data ≠ [] ∧ ∀ ch ∈ s.data, isDig ch = true := by
  unfold pyIsdigit
  simp only [Bool.and_eq_true, Bool.not_eq_true', List.all_eq_true, isEmpty_false_iff]

/-- The claim's version of the region-header condition, phrase by phrase:
column A starts with an item index (digits, possibly followed by a period),
column B is empty, column C is non-empty, longer than 3 characters and
contains neither the federal-district phrase nor the nation-marker phrase,
and column D is a non-negative integer (a nonempty all-digit numeral). -/
def specRegionHeader (a b c d : Option String) : Prop :=
  (∃ sa, a = some sa ∧ ∃ ds rest, sa.data = ds ++ rest ∧ ds ≠ [] ∧
     (∀ ch ∈ ds, isDig ch = true) ∧ (rest = [] ∨ ∃ r', rest = '.' :: r')) ∧
  b = none ∧
  (∃ sc, c = some sc ∧ sc.data ≠ [] ∧ sc.data.length > 3 ∧
     strContains (pyLower sc) "федеральный округ" = false ∧
     strContains (pyLower sc) "указавшие национальную" = false) ∧
  (∃ sd, d = some sd ∧ sd.data ≠ [] ∧ ∀ ch ∈ sd.data, isDig ch = true)

/-- C5: in state `SEARCHING_REGION` a row is accepted as a region header
exactly when the claim's conditions hold (the guard `is_potential_region`
decides acceptance; by `is_potential_region_not_fed` a qualifying row is
never consumed by the federal-district interrupt first). -/
theorem region_header_guard_iff :
    ∀ a b c d : Option String,
      is_potential_region a b c d = true ↔ specRegionHeader a b c d := by
  intro a b c d
  cases a with
  | none => simp [is_potential_region, specRegionHeader]
  | some sa =>
    cases b with
    | some sb => simp [is_potential_region, specRegionHeader]
    | none =>
      cases c with
      | none => simp [is_potential_region, specRegionHeader]
      | some sc =>
        cases d with
        | none => simp [is_potential_region, specRegionHeader]
        | some sd =>
          constructor
          · intro h
            have h' := h
            simp only [is_potential_region, Bool.and_eq_true, Option.isNone_none,
              Bool.not_eq_true', decide_eq_true_eq] at h'
            have hA : pyIsdigit (splitDot0 sa) = true := by tauto
            have hCne : sc.data.isEmpty = false := by tauto
            have hClen : sc.data.length > 3 := by tauto
            have hCf : strContains (pyLower sc) "федеральный округ" = false := by tauto
            have hCm : strContains (pyLower sc) "указавшие национальную" = false := by tauto
            have hD : pyIsdigit sd = true := by tauto
            obtain ⟨ds, rest, h1, h2, h3, h4⟩ := (splitDot0_isdigit_iff sa).mp hA
            obtain ⟨hDne, hDall⟩ := pyIsdigit_iff.mp hD
            exact ⟨⟨sa, rfl, ds, rest, h1, h2, h3, h4⟩, rfl,
              ⟨sc, rfl, isEmpty_false_iff.mp hCne, hClen, hCf, hCm⟩,
              ⟨sd, rfl, hDne, hDall⟩⟩
          · rintro ⟨⟨sa', hsa, ds, rest, h1, h2, h3, h4⟩, -,
              ⟨sc', hsc, hCne, hClen, hCf, hCm⟩, ⟨sd', hsd, hDne, hDall⟩⟩
            cases hsa
            cases hsc
            cases hsd
            have hA : pyIsdigit (splitDot0 sa) = true :=
              (splitDot0_isdigit_iff sa).mpr ⟨ds, rest, h1, h2, h3, h4⟩
            have hAne : sa.data.isEmpty = false := by
              rw [h1]
              cases ds with
              | nil => exact absurd rfl h2
              | cons x xs => rfl
            have hD : pyIsdigit sd = true := pyIsdigit_iff.mpr ⟨hDne, hDall⟩
            have hCne' : sc.data.isEmpty = false := isEmpty_false_iff.mpr hCne
            have hDne' : sd.data.isEmpty = false := isEmpty_false_iff.mpr hDne
            simp only [is_potential_region, Bool.and_eq_true, Option.isNone_none,
              Bool.not_eq_true', decide_eq_true_eq]
            tauto

/-! ## Decimal numerals: Python str(N) is Nat.repr (C1) -/

/-- The character list of the decimal numeral of `n`. -/
def reprL (n : Nat) : List Char := Nat.toDigits 10 n

lemma toDigitsCore_append :
    ∀ (n fuel : Nat) (acc : List Char), n < fuel →
      Nat.toDigitsCore 10 fuel n acc = Nat.toDigitsCore 10 fuel n [] ++ acc := by
  intro n
  induction n using Nat.strong_induction_on with
  | _ n ih =>
    intro fuel acc hfuel
    match fuel with
    | 0 => omega
    | f + 1 =>
      simp only [Nat.toDigitsCore]
      by_cases h10 : n / 10 = 0
      · simp [h10]
      · have hn : 10 ≤ n := by
          rcases Nat.lt_or_ge n 10 with h | h
          · exact absurd (Nat.div_eq_of_lt h) h10
          · exact h
        have hlt : n / 10 < n := Nat.div_lt_self (by omega) (by decide)
        simp only [h10, if_false]
        rw [ih (n / 10) hlt f _ (by omega), ih (n / 10) hlt f [Nat.digitChar (n % 10)] (by omega)]
        simp

lemma toDigitsCore_fuel :
    ∀ (n f1 f2 : Nat), n < f1 → n < f2 →
      Nat.toDigitsCore 10 f1 n [] = Nat.toDigitsCore 10 f2 n [] := by
  intro n
  induction n using Nat.strong_induction_on with
  | _ n ih =>
    intro f1 f2 h1 h2
    match f1, f2 with
    | 0, _ => omega
    | _ + 1, 0 => omega
    | g1 + 1, g2 + 1 =>
      simp only [Nat.toDigitsCore]
      by_cases h10 : n / 10 = 0
      · simp [h10]
      · have hn : 10 ≤ n := by
          rcases Nat.lt_or_ge n 10 with h | h
          · exact absurd (Nat.div_eq_of_lt h) h10
          · exact h
        have hlt : n / 10 < n := Nat.div_lt_self (by omega) (by decide)
        simp only [h10, if_false]
        rw [toDigitsCore_append (n / 10) g1 _ (by omega),
          toDigitsCore_append (n / 10) g2 _ (by omega),
          ih (n / 10) hlt g1 g2 (by omega) (by omega)]

lemma reprL_step (n : Nat) :
    reprL n = if n < 10 then [Nat.digitChar n]
              else reprL (n / 10) ++ [Nat.digitChar (n % 10)] := by
  unfold reprL Nat.toDigits
  by_cases h : n < 10
  · have h10 : n / 10 = 0 := Nat.div_eq_of_lt h
    have hmod : n % 10 = n := Nat.mod_eq_of_lt h
    simp [Nat.toDigitsCore, h10, hmod, h]
  · have h10 : n / 10 ≠ 0 := by
      intro hc
      exact h (by omega)
    have hlt : n / 10 < n := Nat.div_lt_self (by omega) (by decide)
    simp only [Nat.toDigitsCore, h10, if_false, h]
    rw [toDigitsCore_append (n / 10) n _ (by omega),
      toDigitsCore_fuel (n / 10) n (n / 10 + 1) (by omega) (by omega)]
    simp only [Nat.toDigitsCore]

lemma digitChar_isDig {m : Nat} (h : m < 10) : isDig (Nat.digitChar m) = true := by
  interval_cases m <;> decide

lemma digitChar_toNat {m : Nat} (h : m < 10) : (Nat.digitChar m).toNat - 48 = m := by
  interval_cases m <;> decide

lemma reprL_digits (n : Nat) : reprL n ≠ [] ∧ ∀ c ∈ reprL n, isDig c = true := by
  induction n using Nat.strong_induction_on with
  | _ n ih =>
    rw [reprL_step n]
    by_cases h : n < 10
    · simp only [h, if_true]
      refine ⟨by simp, ?_⟩
      intro c hc
      have : c = Nat.digitChar n := by simpa using hc
      rw [this]
      exact digitChar_isDig h
    · have hlt : n / 10 < n := Nat.div_lt_self (by omega) (by decide)
      obtain ⟨ihne, ihall⟩ := ih (n / 10) hlt
      simp only [h, if_false]
      refine ⟨by simp, ?_⟩
      intro c hc
      rw [List.mem_append] at hc
      rcases hc with hc | hc
      · exact ihall c hc
      · have : c = Nat.digitChar (n % 10) := by simpa using hc
        rw [this]
        exact digitChar_isDig (Nat.mod_lt n (by decide))

/-- `digitsToNat` with an accumulator. -/
def foldD (a : Nat) (l : List Char) : Nat := l.foldl (fun x c => 10 * x + (c.toNat - 48)) a

lemma foldD_reprL (n : Nat) : ∀ a, foldD a (reprL n) = a * 10 ^ (reprL n).length + n := by
  induction n using Nat.strong_induction_on with
  | _ n ih =>
    intro a
    rw [reprL_step n]
    by_cases h : n < 10
    · simp only [h, if_true]
      show 10 * a + ((Nat.digitChar n).toNat - 48) = a * 10 ^ [Nat.digitChar n].length + n
      rw [digitChar_toNat h]
      simp [Nat.mul_comm]
    · have hlt : n / 10 < n := Nat.div_lt_self (by omega) (by decide)
      simp only [h, if_false]
      unfold foldD
      rw [List.foldl_append]
      have ihv := ih (n / 10) hlt a
      unfold foldD at ihv
      rw [ihv]
      show 10 * (a * 10 ^ (reprL (n / 10)).length + n / 10) + ((Nat.digitChar (n % 10)).toNat - 48) =
        a * 10 ^ (reprL (n / 10) ++ [Nat.digitChar (n % 10)]).length + n
      rw [digitChar_toNat (Nat.mod_lt n (by decide))]
      rw [List.length_append, List.length_cons, List.length_nil, pow_succ]
      calc 10 * (a * 10 ^ (reprL (n / 10)).length + n / 10) + n % 10
          = a * (10 ^ (reprL (n / 10)).length * 10) + (10 * (n / 10) + n % 10) := by ring
        _ = a * (10 ^ (reprL (n / 10)).length * 10) + n := by rw [Nat.div_add_mod]

lemma digitsToNat_reprL (n : Nat) : digitsToNat (reprL n) = n := by
  have h := foldD_reprL n 0
  unfold foldD at h
  unfold digitsToNat
  rw [h]
  simp

lemma dig_not_space {c : Char} (h : isDig c = true) : isPySpace c = false := by
  simp only [isDig, Bool.and_eq_true, decide_eq_true_eq] at h
  simp only [isPySpace, Bool.or_eq_false_iff, decide_eq_false_iff_not]
  omega

lemma dropWhile_nonspace_cons {c : Char} {t : List Char} (h : isPySpace c = false) :
    (c :: t).dropWhile isPySpace = c :: t := by
  simp [List.dropWhile_cons, h]

lemma dropWhile_append_all {p : Char → Bool} {l1 : List Char} (l2 : List Char)
    (h : ∀ x ∈ l1, p x = true) :
    (l1 ++ l2).dropWhile p = l2.dropWhile p := by
  induction l1 with
  | nil => simp
  | cons a t ih =>
    have ha : p a = true := h a (by simp)
    simp [List.dropWhile_cons, ha, ih (fun x hx => h x (by simp [hx]))]

lemma dropWhile_cons_self {p : Char → Bool} {c : Char} {t : List Char}
    (h : (c :: t).dropWhile p = c :: t) : p c = false := by
  cases hb : p c with
  | false => rfl
  | true =>
    rw [List.dropWhile_cons, if_pos hb] at h
    have hlen := congrArg List.length h
    have hle : (t.dropWhile p).length ≤ t.length := (List.dropWhile_sublist p).length_le
    simp only [List.length_cons] at hlen
    omega

/-- Stripping a decimal numeral followed by a suffix whose last character is
not whitespace is the identity. -/
lemma pyStrip_reprL_append (n : Nat) (sfx : List Char)
    (hrev : sfx.reverse.dropWhile isPySpace = sfx.reverse) :
    pyStrip (reprL n ++ sfx) = reprL n ++ sfx := by
  unfold pyStrip
  obtain ⟨hne, hall⟩ := reprL_digits n
  have hfront : (reprL n ++ sfx).dropWhile isPySpace = reprL n ++ sfx := by
    cases hr : reprL n with
    | nil => exact absurd hr hne
    | cons c t =>
      have hc : isPySpace c = false :=
        dig_not_space (hall c (by rw [hr]; exact List.mem_cons_self c t))
      exact dropWhile_nonspace_cons hc
  rw [hfront, List.reverse_append]
  have hback : (sfx.reverse ++ (reprL n).reverse).dropWhile isPySpace =
      sfx.reverse ++ (reprL n).reverse := by
    cases hs : sfx.reverse with
    | nil =>
      simp only [List.nil_append]
      cases hr : (reprL n).reverse with
      | nil => rfl
      | cons c t =>
        have hcm : c ∈ reprL n := by
          have : c ∈ (reprL n).reverse := by rw [hr]; exact List.mem_cons_self c t
          simpa using this
        exact dropWhile_nonspace_cons (dig_not_space (hall c hcm))
    | cons c t =>
      rw [hs] at hrev
      exact dropWhile_nonspace_cons (dropWhile_cons_self hrev)
  rw [hback]
  simp

/-- The open-ended pattern accepts a numeral followed by a suffix that starts
with no digit and carries one of the three open-ended markers. -/
lemma matchOlder_reprL (n : Nat) (sfx : List Char)
    (h1 : sfx.takeWhile isDig = [])
    (h2 : sfx.dropWhile isDig = sfx)
    (h3 : (pfxOf "и более".data ((sfx.dropWhile isPySpace).map pyLowerChar) ||
           pfxOf "и старше".data ((sfx.dropWhile isPySpace).map pyLowerChar) ||
           pfxOf "+".data ((sfx.dropWhile isPySpace).map pyLowerChar)) = true) :
    matchOlder (reprL n ++ sfx) = some ((n : Int), 120) := by
  obtain ⟨hne, hall⟩ := reprL_digits n
  have htk : (reprL n ++ sfx).takeWhile isDig = reprL n := by
    rw [takeWhile_append_all sfx hall, h1, List.append_nil]
  have hdr : (reprL n ++ sfx).dropWhile isDig = sfx := by
    rw [dropWhile_append_all sfx hall, h2]
  have hemp : (reprL n).isEmpty = false := isEmpty_false_iff.mpr hne
  simp only [matchOlder]
  rw [htk, hdr, hemp]
  simp only [Bool.false_eq_true, if_false]
  rw [h3]
  simp only [if_true]
  rw [digitsToNat_reprL]

/-- C1 counterexample: for the negative integer -1, the formatted string
"-1 и более" matches none of the three patterns (the regexes require a
leading digit), so `parse_age_group` returns `none`, not `(-1, 120)`. -/
theorem parse_age_group_negative_cex :
    parse_age_group (toString (-1 : Int) ++ " и более") ≠ some (-1, 120) := by decide

/-- C1 amended: for every non-negative integer N, `parse_age_group` applied
to the decimal numeral of N followed by an open-ended suffix (" и более",
" и старше", or a trailing "+") returns the interval (N, 120). -/
theorem parse_age_group_open_ended :
    ∀ i : Int, 0 ≤ i →
      parse_age_group (toString i ++ " и более") = some (i, 120) ∧
      parse_age_group (toString i ++ " и старше") = some (i, 120) ∧
      parse_age_group (toString i ++ "+") = some (i, 120) := by
  intro i hi
  obtain ⟨n, rfl⟩ := Int.eq_ofNat_of_zero_le hi
  have hdata : ∀ sfx : String, (toString (n : Int) ++ sfx).data = reprL n ++ sfx.data := by
    intro sfx
    have h1 : toString (n : Int) = Nat.repr n := rfl
    have h2 : (Nat.repr n).data = reprL n := rfl
    rw [h1, String.data_append, h2]
  refine ⟨?_, ?_, ?_⟩
  · simp only [parse_age_group, hdata]
    rw [pyStrip_reprL_append n (" и более").data (by decide)]
    rw [matchOlder_reprL n (" и более").data (by decide) (by decide) (by decide)]
  · simp only [parse_age_group, hdata]
    rw [pyStrip_reprL_append n (" и старше").data (by decide)]
    rw [matchOlder_reprL n (" и старше").data (by decide) (by decide) (by decide)]
  · simp only [parse_age_group, hdata]
    rw [pyStrip_reprL_append n ("+").data (by decide)]
    rw [matchOlder_reprL n ("+").data (by decide) (by decide) (by decide)]

/-- Witness for C1 amended, at N = 85. -/
theorem parse_age_group_open_ended_witness :
    (0 : Int) ≤ 85 ∧
    (parse_age_group (toString (85 : Int) ++ " и более") = some (85, 120) ∧
     parse_age_group (toString (85 : Int) ++ " и старше") = some (85, 120) ∧
     parse_age_group (toString (85 : Int) ++ "+") = some (85, 120)) :=
  ⟨by decide, parse_age_group_open_ended 85 (by decide)⟩
